import Mathlib

/-!
Shallow embedding of the "Catch the Block" SDL2 game
(src/project_templete/main.cpp) and proofs of its specified properties.

The per-frame game loop is modelled as a pure step function over an
explicit game state.  The SDL library primitives the loop calls
(`SDL_HasIntersection`, `SDL_PointInRect`) are embedded following the
SDL2 library's own implementations, since the game's collision and
button semantics are exactly theirs.
-/

namespace CatchTheBlock

/-- Configuration constants from main.cpp. -/
def SCREEN_WIDTH : Int := 800

def SCREEN_HEIGHT : Int := 600

def PADDLE_WIDTH : Int := 100

def PADDLE_HEIGHT : Int := 20

def BLOCK_SIZE : Int := 30

def PADDLE_SPEED : Int := 10

def BLOCK_SPEED : Int := 5

def MAX_MISTAKES : Int := 5

/-- SDL keycode of the Escape key (SDLK_ESCAPE = 27). -/
def SDLK_ESCAPE : Int := 27

/-- SDL_Rect: an axis-aligned rectangle with integer position and size. -/
structure SDL_Rect where
  x : Int
  y : Int
  w : Int
  h : Int
deriving DecidableEq

/-- SDL_Point: an integer point. -/
structure SDL_Point where
  x : Int
  y : Int
deriving DecidableEq

/-- SDL_RectEmpty, from SDL2 rect.h: a rectangle is empty when its width
or height is not positive. -/
def SDL_RectEmpty (r : SDL_Rect) : Bool :=
  decide (r.w ≤ 0) || decide (r.h ≤ 0)

/-- SDL_HasIntersection, from SDL2 SDL_rect.c: empty rectangles never
intersect; otherwise intersect the horizontal and the vertical intervals
(clamping the min up and the max down) and report whether both stay
nonempty, with strict comparison (`Amax ≤ Amin` means no intersection). -/
def SDL_HasIntersection (A B : SDL_Rect) : Bool :=
  if SDL_RectEmpty A || SDL_RectEmpty B then false
  else
    let hmin := max A.x B.x
    let hmax := min (A.x + A.w) (B.x + B.w)
    if hmax ≤ hmin then false
    else
      let vmin := max A.y B.y
      let vmax := min (A.y + A.h) (B.y + B.h)
      if vmax ≤ vmin then false
      else true

/-- SDL_PointInRect, from SDL2 rect.h: half-open containment
x ∈ [r.x, r.x + r.w), y ∈ [r.y, r.y + r.h). -/
def SDL_PointInRect (p : SDL_Point) (r : SDL_Rect) : Bool :=
  decide (p.x ≥ r.x) && decide (p.x < r.x + r.w) &&
  decide (p.y ≥ r.y) && decide (p.y < r.y + r.h)

/-- Game states, from the GameState enum. -/
inductive GameState
  | MENU
  | PLAYING
  | GAME_OVER
deriving DecidableEq

/-- The full mutable state of the game loop: current state, mistake
counter, paddle rectangle, block rectangle, the loop flag, and whether
the background music is currently playing. -/
structure GState where
  currentState : GameState
  mistakes : Int
  player : SDL_Rect
  block : SDL_Rect
  isRunning : Bool
  musicPlaying : Bool
deriving DecidableEq

/-- The play button rectangle: w=250, h=100, centered on the screen
(x = (800-250)/2 = 275, y = (600-100)/2 = 250). -/
def playButtonRect : SDL_Rect :=
  { x := (SCREEN_WIDTH - 250) / 2
    y := (SCREEN_HEIGHT - 100) / 2
    w := 250
    h := 100 }

/-- The events the loop reacts to. A mouse-button-down event carries the
mouse position that SDL_GetMouseState reports at that moment; a
mouse-motion event carries event.motion.x. -/
inductive Event
  | quit
  | keyDown (sym : Int)
  | mouseButtonDown (mouseX mouseY : Int)
  | mouseMotion (x : Int)
  | other
deriving DecidableEq

/-- Processing of one polled event, from the inner event loop. -/
def handleEvent (s : GState) (e : Event) : GState :=
  match e with
  | Event.quit => { s with isRunning := false }
  | Event.keyDown sym =>
      if sym = SDLK_ESCAPE then { s with isRunning := false } else s
  | Event.mouseButtonDown mouseX mouseY =>
      if s.currentState = GameState.MENU then
        if SDL_PointInRect ⟨mouseX, mouseY⟩ playButtonRect then
          { s with currentState := GameState.PLAYING, musicPlaying := true }
        else s
      else s
  | Event.mouseMotion mx =>
      if s.currentState = GameState.PLAYING then
        { s with player := { s.player with x := mx - s.player.w / 2 } }
      else s
  | Event.other => s

/-- The whole event-polling loop of one frame. -/
def processEvents (s : GState) (events : List Event) : GState :=
  List.foldl handleEvent s events

/-- The keyboard state sampled once per frame via SDL_GetKeyboardState. -/
structure Keyboard where
  left : Bool
  right : Bool
deriving DecidableEq

/-- The keyboard-input section: while PLAYING, the left arrow subtracts
PADDLE_SPEED from the paddle x and the right arrow adds it (both can
apply in the same frame). -/
def applyKeyboard (k : Keyboard) (s : GState) : GState :=
  if s.currentState = GameState.PLAYING then
    let s1 :=
      if k.left then
        { s with player := { s.player with x := s.player.x - PADDLE_SPEED } }
      else s
    if k.right then
      { s1 with player := { s1.player with x := s1.player.x + PADDLE_SPEED } }
    else s1
  else s

/-- The paddle clamp: first snap a negative x to 0, then snap an x beyond
SCREEN_WIDTH - w to SCREEN_WIDTH - w (two independent ifs, as in the code). -/
def clampPaddleX (x w : Int) : Int :=
  let x1 := if x < 0 then 0 else x
  if x1 > SCREEN_WIDTH - w then SCREEN_WIDTH - w else x1

/-- rand() % (SCREEN_WIDTH - BLOCK_SIZE): rand() yields a nonnegative
int, so the respawn x is its remainder modulo 770. -/
def randBlockX (r : Nat) : Int :=
  (Int.ofNat r) % (SCREEN_WIDTH - BLOCK_SIZE)

/-- The paddle rectangle after the in-frame clamping step. -/
def paddleAfterClamp (s : GState) : SDL_Rect :=
  { s.player with x := clampPaddleX s.player.x s.player.w }

/-- The block rectangle after the in-frame downward move. -/
def blockAfterMove (s : GState) : SDL_Rect :=
  { s.block with y := s.block.y + BLOCK_SPEED }

/-- The collision ("catch") condition of a frame: the clamped paddle and
the moved block intersect. -/
def catchCondition (s : GState) : Prop :=
  SDL_HasIntersection (paddleAfterClamp s) (blockAfterMove s) = true

instance (s : GState) : Decidable (catchCondition s) := by
  unfold catchCondition; infer_instance

/-- The game-logic section of a frame (runs only while PLAYING): clamp
the paddle, advance the block, reset the block on a catch, then on a
miss (block y beyond the bottom) increment the mistake counter, reset
the block, and at MAX_MISTAKES transition to GAME_OVER and halt the
music. `rnd` is the value rand() would return in this frame (at most
one of the two rand() call sites executes per frame). -/
def updateLogic (rnd : Nat) (s : GState) : GState :=
  if s.currentState = GameState.PLAYING then
    let player := paddleAfterClamp s
    let block0 := blockAfterMove s
    let block1 :=
      if SDL_HasIntersection player block0 then
        { block0 with y := 0, x := randBlockX rnd }
      else block0
    if block1.y > SCREEN_HEIGHT then
      let mistakes := s.mistakes + 1
      let block2 := { block1 with y := 0, x := randBlockX rnd }
      if mistakes ≥ MAX_MISTAKES then
        { s with player := player, block := block2, mistakes := mistakes,
                 currentState := GameState.GAME_OVER, musicPlaying := false }
      else
        { s with player := player, block := block2, mistakes := mistakes }
    else
      { s with player := player, block := block1 }
  else s

/-- One frame's external input: the polled events, the sampled arrow-key
states, and the pending rand() value. -/
structure FrameInput where
  events : List Event
  keys : Keyboard
  rnd : Nat
deriving DecidableEq

/-- One full iteration of the game loop (rendering has no effect on the
state and is omitted). -/
def stepFrame (i : FrameInput) (s : GState) : GState :=
  updateLogic i.rnd (applyKeyboard i.keys (processEvents s i.events))

/-- The state right after setup: MENU, no mistakes, paddle centered at
the bottom, block at a random x on the top edge, loop running, music
not yet playing. `r0` is the initial rand() value. -/
def initState (r0 : Nat) : GState :=
  { currentState := GameState.MENU
    mistakes := 0
    player := { x := (SCREEN_WIDTH - PADDLE_WIDTH) / 2
                y := SCREEN_HEIGHT - PADDLE_HEIGHT - 10
                w := PADDLE_WIDTH
                h := PADDLE_HEIGHT }
    block := { x := randBlockX r0, y := 0, w := BLOCK_SIZE, h := BLOCK_SIZE }
    isRunning := true
    musicPlaying := false }

/-- The states the game loop can reach: the initial state, and any state
obtained by running one more frame from a reachable state while the
loop flag is still set. -/
inductive Reachable : GState → Prop
  | init (r0 : Nat) : Reachable (initState r0)
  | step {s : GState} (i : FrameInput) :
      Reachable s → s.isRunning = true → Reachable (stepFrame i s)

/-- Running the game loop over a list of frame inputs: each iteration
executes only while the loop flag is set. -/
def runFrames (l : List FrameInput) (s : GState) : GState :=
  match l with
  | [] => s
  | i :: rest => if s.isRunning then runFrames rest (stepFrame i s) else s

/-- The inductive invariant of the game loop. -/
def Inv (s : GState) : Prop :=
  0 ≤ s.mistakes ∧ s.mistakes ≤ MAX_MISTAKES ∧
  (s.currentState = GameState.GAME_OVER ↔ s.mistakes = MAX_MISTAKES) ∧
  0 ≤ s.block.x ∧ s.block.x < SCREEN_WIDTH - BLOCK_SIZE ∧
  0 ≤ s.block.y ∧ s.block.y ≤ SCREEN_HEIGHT ∧ BLOCK_SPEED ∣ s.block.y ∧
  s.player.y = SCREEN_HEIGHT - PADDLE_HEIGHT - 10 ∧
  s.player.w = PADDLE_WIDTH ∧ s.player.h = PADDLE_HEIGHT ∧
  s.block.w = BLOCK_SIZE ∧ s.block.h = BLOCK_SIZE

/-- A frame with no events, no arrow keys held, and rand value 0. -/
def playInput : FrameInput := { events := [], keys := ⟨false, false⟩, rnd := 0 }

/-- A frame whose only event is a mouse click at (400, 300). -/
def startInput : FrameInput :=
  { events := [Event.mouseButtonDown 400 300], keys := ⟨false, false⟩, rnd := 0 }

/-- A frame whose only event is a window-close event. -/
def quitInput : FrameInput := { events := [Event.quit], keys := ⟨false, false⟩, rnd := 0 }

/-- The state after clicking play and then letting the block fall
freely for 603 more frames: four misses have accumulated and the block
is back at y = 600. -/
def s4 : GState := runFrames (startInput :: List.replicate 603 playInput) (initState 0)

/-- A concrete Playing state one frame before a catch. -/
def sCatch : GState :=
  { currentState := GameState.PLAYING, mistakes := 2,
    player := ⟨350, 570, 100, 20⟩, block := ⟨380, 560, 30, 30⟩,
    isRunning := true, musicPlaying := true }

/-- A concrete Playing state whose block is in mid-air away from the paddle. -/
def sFall : GState :=
  { currentState := GameState.PLAYING, mistakes := 0,
    player := ⟨350, 570, 100, 20⟩, block := ⟨0, 5, 30, 30⟩,
    isRunning := true, musicPlaying := true }

/-- A concrete Playing state one frame before a catch, no mistakes yet. -/
def sNine : GState :=
  { currentState := GameState.PLAYING, mistakes := 0,
    player := ⟨350, 570, 100, 20⟩, block := ⟨380, 560, 30, 30⟩,
    isRunning := true, musicPlaying := true }

lemma hasIntersection_char (A B : SDL_Rect) :
    SDL_HasIntersection A B = true ↔
      (0 < A.w ∧ 0 < A.h ∧ 0 < B.w ∧ 0 < B.h ∧
       A.x < B.x + B.w ∧ B.x < A.x + A.w ∧ A.y < B.y + B.h ∧ B.y < A.y + A.h) := by
  simp only [SDL_HasIntersection, SDL_RectEmpty, Bool.or_eq_true, decide_eq_true_eq]
  split_ifs <;> simp_all <;> omega

lemma hasIntersection_false_of_below (A B : SDL_Rect) (h : A.y + A.h ≤ B.y) :
    SDL_HasIntersection A B = false := by
  cases hab : SDL_HasIntersection A B with
  | false => rfl
  | true =>
      exfalso
      have hc := (hasIntersection_char A B).mp hab
      omega

/-- Claim C1: for every pair of rectangles arising in the game (all game
rectangles have positive width and height), the collision test agrees with
the standard strict axis-aligned overlap formula, and it is symmetric. -/
theorem collision_symmetric_standard_overlap (A B : SDL_Rect)
    (hAw : 0 < A.w) (hAh : 0 < A.h) (hBw : 0 < B.w) (hBh : 0 < B.h) :
    (SDL_HasIntersection A B = true ↔
      (A.x < B.x + B.w ∧ B.x < A.x + A.w ∧ A.y < B.y + B.h ∧ B.y < A.y + A.h)) ∧
    SDL_HasIntersection A B = SDL_HasIntersection B A := by
  have h1 := hasIntersection_char A B
  have h2 := hasIntersection_char B A
  constructor
  · rw [h1]; constructor
    · intro h; exact ⟨h.2.2.2.2.1, h.2.2.2.2.2.1, h.2.2.2.2.2.2.1, h.2.2.2.2.2.2.2⟩
    · intro h; exact ⟨hAw, hAh, hBw, hBh, h.1, h.2.1, h.2.2.1, h.2.2.2⟩
  · cases hab : SDL_HasIntersection A B <;> cases hba : SDL_HasIntersection B A
    · rfl
    · have hc := (hasIntersection_char B A).mp hba
      have ht : SDL_HasIntersection A B = true :=
        (hasIntersection_char A B).mpr
          ⟨hAw, hAh, hBw, hBh, by omega, by omega, by omega, by omega⟩
      rw [hab] at ht; exact absurd ht (by simp)
    · have hc := (hasIntersection_char A B).mp hab
      have ht : SDL_HasIntersection B A = true :=
        (hasIntersection_char B A).mpr
          ⟨hBw, hBh, hAw, hAh, by omega, by omega, by omega, by omega⟩
      rw [hba] at ht; exact absurd ht (by simp)
    · rfl

/-- Witness for C1 at the paddle and block of the catch scenario. -/
theorem collision_symmetric_standard_overlap_witness :
    (SDL_HasIntersection ⟨350, 570, 100, 20⟩ ⟨380, 565, 30, 30⟩ = true ↔
      ((350 : Int) < 380 + 30 ∧ (380 : Int) < 350 + 100 ∧
       (570 : Int) < 565 + 30 ∧ (565 : Int) < 570 + 20)) ∧
    SDL_HasIntersection ⟨350, 570, 100, 20⟩ ⟨380, 565, 30, 30⟩ =
      SDL_HasIntersection ⟨380, 565, 30, 30⟩ ⟨350, 570, 100, 20⟩ :=
  collision_symmetric_standard_overlap ⟨350, 570, 100, 20⟩ ⟨380, 565, 30, 30⟩
    (by decide) (by decide) (by decide) (by decide)

/-- Counterexample to claim C5 as stated: the block rectangle whose bottom
edge coincides with the paddle top edge, with overlapping horizontal
ranges, is reported as NOT intersecting by the geometry test. -/
theorem touching_edges_counterexample :
    ((540 : Int) + 30 = 570) ∧ ((350 : Int) < 380 + 30) ∧ ((380 : Int) < 350 + 100) ∧
    SDL_HasIntersection ⟨350, 570, 100, 20⟩ ⟨380, 540, 30, 30⟩ = false := by decide

/-- Claim C5 (amended): touching edges do NOT count as intersecting; for
every pair of rectangles sharing an edge coordinate the geometry test
reports no intersection. -/
theorem touching_edges_do_not_intersect (A B : SDL_Rect)
    (h : B.y + B.h = A.y ∨ A.y + A.h = B.y ∨ A.x + A.w = B.x ∨ B.x + B.w = A.x) :
    SDL_HasIntersection A B = false := by
  cases hab : SDL_HasIntersection A B with
  | false => rfl
  | true =>
      exfalso
      have hc := (hasIntersection_char A B).mp hab
      rcases h with h | h | h | h <;> omega

/-- Witness for the amended C5 at the edge-touching pair. -/
theorem touching_edges_do_not_intersect_witness :
    SDL_HasIntersection ⟨350, 570, 100, 20⟩ ⟨380, 540, 30, 30⟩ = false :=
  touching_edges_do_not_intersect ⟨350, 570, 100, 20⟩ ⟨380, 540, 30, 30⟩
    (Or.inl (by decide))

lemma handleEvent_block (s : GState) (e : Event) :
    (handleEvent s e).block = s.block := by
  cases e <;> simp only [handleEvent] <;> (try split_ifs) <;> rfl

lemma handleEvent_mistakes (s : GState) (e : Event) :
    (handleEvent s e).mistakes = s.mistakes := by
  cases e <;> simp only [handleEvent] <;> (try split_ifs) <;> rfl

lemma handleEvent_player_dims (s : GState) (e : Event) :
    (handleEvent s e).player.y = s.player.y ∧
    (handleEvent s e).player.w = s.player.w ∧
    (handleEvent s e).player.h = s.player.h := by
  cases e <;> simp only [handleEvent] <;> (try split_ifs) <;> simp

lemma handleEvent_playing (s : GState) (e : Event)
    (h : s.currentState = GameState.PLAYING) :
    (handleEvent s e).currentState = GameState.PLAYING := by
  cases e <;> simp only [handleEvent] <;> (try split_ifs) <;> simp_all

lemma handleEvent_isRunning_false (s : GState) (e : Event)
    (h : s.isRunning = false) :
    (handleEvent s e).isRunning = false := by
  cases e <;> simp only [handleEvent] <;> (try split_ifs) <;> simp_all

lemma processEvents_block (s : GState) (evs : List Event) :
    (processEvents s evs).block = s.block := by
  induction evs generalizing s with
  | nil => rfl
  | cons e rest ih =>
      show (processEvents (handleEvent s e) rest).block = s.block
      rw [ih, handleEvent_block]

lemma processEvents_mistakes (s : GState) (evs : List Event) :
    (processEvents s evs).mistakes = s.mistakes := by
  induction evs generalizing s with
  | nil => rfl
  | cons e rest ih =>
      show (processEvents (handleEvent s e) rest).mistakes = s.mistakes
      rw [ih, handleEvent_mistakes]

lemma processEvents_player_dims (s : GState) (evs : List Event) :
    (processEvents s evs).player.y = s.player.y ∧
    (processEvents s evs).player.w = s.player.w ∧
    (processEvents s evs).player.h = s.player.h := by
  induction evs generalizing s with
  | nil => exact ⟨rfl, rfl, rfl⟩
  | cons e rest ih =>
      have h1 := handleEvent_player_dims s e
      have h2 := ih (handleEvent s e)
      exact ⟨h2.1.trans h1.1, h2.2.1.trans h1.2.1, h2.2.2.trans h1.2.2⟩

lemma processEvents_playing (s : GState) (evs : List Event)
    (h : s.currentState = GameState.PLAYING) :
    (processEvents s evs).currentState = GameState.PLAYING := by
  induction evs generalizing s with
  | nil => exact h
  | cons e rest ih => exact ih (handleEvent s e) (handleEvent_playing s e h)

lemma processEvents_isRunning_false (s : GState) (evs : List Event)
    (h : s.isRunning = false) :
    (processEvents s evs).isRunning = false := by
  induction evs generalizing s with
  | nil => exact h
  | cons e rest ih => exact ih (handleEvent s e) (handleEvent_isRunning_false s e h)

lemma processEvents_quit_or_escape (s : GState) (evs : List Event)
    (h : Event.quit ∈ evs ∨ Event.keyDown SDLK_ESCAPE ∈ evs) :
    (processEvents s evs).isRunning = false := by
  induction evs generalizing s with
  | nil => rcases h with h | h <;> exact absurd h (List.not_mem_nil _)
  | cons e rest ih =>
      show (processEvents (handleEvent s e) rest).isRunning = false
      rcases h with h | h
      · rcases List.mem_cons.mp h with h1 | h1
        · subst h1
          exact processEvents_isRunning_false _ _ rfl
        · exact ih _ (Or.inl h1)
      · rcases List.mem_cons.mp h with h1 | h1
        · subst h1
          apply processEvents_isRunning_false
          simp [handleEvent]
        · exact ih _ (Or.inr h1)

lemma applyKeyboard_shape (k : Keyboard) (s : GState) :
    ∃ px, applyKeyboard k s = { s with player := { s.player with x := px } } := by
  unfold applyKeyboard
  split_ifs <;> exact ⟨_, rfl⟩

lemma randBlockX_nonneg (r : Nat) : 0 ≤ randBlockX r :=
  Int.emod_nonneg _ (by decide)

lemma randBlockX_lt (r : Nat) : randBlockX r < SCREEN_WIDTH - BLOCK_SIZE :=
  Int.emod_lt_of_pos _ (by decide)

lemma inv_initState (r0 : Nat) : Inv (initState r0) :=
  ⟨le_refl 0, (by decide : (0 : Int) ≤ 5), by simp [initState, MAX_MISTAKES],
   randBlockX_nonneg r0, randBlockX_lt r0,
   le_refl 0, (by decide : (0 : Int) ≤ 600), dvd_zero _, rfl, rfl, rfl, rfl, rfl⟩

lemma inv_handleEvent (s : GState) (e : Event) (h : Inv s) :
    Inv (handleEvent s e) := by
  cases e with
  | quit => exact h
  | keyDown sym =>
      simp only [handleEvent]
      split_ifs <;> exact h
  | mouseButtonDown mx my =>
      simp only [handleEvent]
      split_ifs with hm hin
      · obtain ⟨h1, h2, h3, hrest⟩ := h
        refine ⟨h1, h2, ?_, hrest⟩
        rw [hm] at h3
        simp only [show (GameState.MENU = GameState.GAME_OVER) = False by simp] at h3
        simp only [show (GameState.PLAYING = GameState.GAME_OVER) = False by simp]
        simp_all
      · exact h
      · exact h
  | mouseMotion mx =>
      simp only [handleEvent]
      split_ifs <;> exact h
  | other => exact h

lemma inv_processEvents (s : GState) (evs : List Event) (h : Inv s) :
    Inv (processEvents s evs) := by
  induction evs generalizing s with
  | nil => exact h
  | cons e rest ih => exact ih (handleEvent s e) (inv_handleEvent s e h)

lemma inv_applyKeyboard (k : Keyboard) (s : GState) (h : Inv s) :
    Inv (applyKeyboard k s) := by
  obtain ⟨px, hpx⟩ := applyKeyboard_shape k s
  rw [hpx]
  exact h

lemma updateLogic_not_playing (r : Nat) (s : GState)
    (hp : s.currentState ≠ GameState.PLAYING) :
    updateLogic r s = s := by
  rw [updateLogic, if_neg hp]

lemma updateLogic_catch (r : Nat) (s : GState)
    (hp : s.currentState = GameState.PLAYING)
    (hc : SDL_HasIntersection (paddleAfterClamp s) (blockAfterMove s) = true) :
    updateLogic r s =
      { s with player := paddleAfterClamp s,
               block := { s.block with x := randBlockX r, y := 0 } } := by
  rw [updateLogic, if_pos hp]
  simp only [blockAfterMove] at hc
  simp only [blockAfterMove, hc, if_true, SCREEN_HEIGHT]
  split_ifs with h1 <;> first | rfl | omega

lemma updateLogic_no_catch_no_miss (r : Nat) (s : GState)
    (hp : s.currentState = GameState.PLAYING)
    (hc : SDL_HasIntersection (paddleAfterClamp s) (blockAfterMove s) = false)
    (hy : ¬ s.block.y + BLOCK_SPEED > SCREEN_HEIGHT) :
    updateLogic r s =
      { s with player := paddleAfterClamp s, block := blockAfterMove s } := by
  rw [updateLogic, if_pos hp]
  simp only [blockAfterMove, BLOCK_SPEED] at hc
  simp only [SCREEN_HEIGHT, BLOCK_SPEED] at hy
  simp only [blockAfterMove, hc, Bool.false_eq_true, if_false, SCREEN_HEIGHT, BLOCK_SPEED]
  split_ifs
  rfl

lemma updateLogic_miss_continue (r : Nat) (s : GState)
    (hp : s.currentState = GameState.PLAYING)
    (hc : SDL_HasIntersection (paddleAfterClamp s) (blockAfterMove s) = false)
    (hy : s.block.y + BLOCK_SPEED > SCREEN_HEIGHT)
    (hm : ¬ s.mistakes + 1 ≥ MAX_MISTAKES) :
    updateLogic r s =
      { s with player := paddleAfterClamp s,
               block := { s.block with x := randBlockX r, y := 0 },
               mistakes := s.mistakes + 1 } := by
  rw [updateLogic, if_pos hp]
  simp only [blockAfterMove, BLOCK_SPEED] at hc
  simp only [SCREEN_HEIGHT, BLOCK_SPEED] at hy
  simp only [MAX_MISTAKES] at hm
  simp only [blockAfterMove, hc, Bool.false_eq_true, if_false, SCREEN_HEIGHT, BLOCK_SPEED,
    MAX_MISTAKES]
  split_ifs
  rfl

lemma updateLogic_miss_gameOver (r : Nat) (s : GState)
    (hp : s.currentState = GameState.PLAYING)
    (hc : SDL_HasIntersection (paddleAfterClamp s) (blockAfterMove s) = false)
    (hy : s.block.y + BLOCK_SPEED > SCREEN_HEIGHT)
    (hm : s.mistakes + 1 ≥ MAX_MISTAKES) :
    updateLogic r s =
      { s with player := paddleAfterClamp s,
               block := { s.block with x := randBlockX r, y := 0 },
               mistakes := s.mistakes + 1,
               currentState := GameState.GAME_OVER,
               musicPlaying := false } := by
  rw [updateLogic, if_pos hp]
  simp only [blockAfterMove, BLOCK_SPEED] at hc
  simp only [SCREEN_HEIGHT, BLOCK_SPEED] at hy
  simp only [MAX_MISTAKES] at hm
  simp only [blockAfterMove, hc, Bool.false_eq_true, if_false, SCREEN_HEIGHT, BLOCK_SPEED,
    MAX_MISTAKES]
  split_ifs
  rfl

lemma inv_mistakes_lt (s : GState) (h : Inv s)
    (hp : s.currentState = GameState.PLAYING) :
    s.mistakes < MAX_MISTAKES := by
  obtain ⟨hm0, hm5, hiff, hrest⟩ := h
  rcases lt_or_eq_of_le hm5 with hlt | heq
  · exact hlt
  · exfalso
    have hgo := hiff.mpr heq
    rw [hp] at hgo
    exact absurd hgo (by simp)

lemma inv_updateLogic (r : Nat) (s : GState) (h : Inv s) :
    Inv (updateLogic r s) := by
  by_cases hp : s.currentState = GameState.PLAYING
  · have hmlt := inv_mistakes_lt s h hp
    obtain ⟨hm0, hm5, hiff, hbx0, hbx1, hby0, hby1, hdvd, hpy, hpw, hph, hbw, hbh⟩ := h
    by_cases hc : SDL_HasIntersection (paddleAfterClamp s) (blockAfterMove s) = true
    · rw [updateLogic_catch r s hp hc]
      exact ⟨hm0, hm5, hiff, randBlockX_nonneg r, randBlockX_lt r,
        le_refl 0, (by decide : (0 : Int) ≤ 600), dvd_zero _, hpy, hpw, hph, hbw, hbh⟩
    · rw [Bool.not_eq_true] at hc
      by_cases hy : s.block.y + BLOCK_SPEED > SCREEN_HEIGHT
      · by_cases hm : s.mistakes + 1 ≥ MAX_MISTAKES
        · rw [updateLogic_miss_gameOver r s hp hc hy hm]
          exact ⟨(by omega : (0 : Int) ≤ s.mistakes + 1),
            (by omega : s.mistakes + 1 ≤ MAX_MISTAKES),
            (⟨fun _ => by omega, fun _ => rfl⟩ :
              GameState.GAME_OVER = GameState.GAME_OVER ↔ s.mistakes + 1 = MAX_MISTAKES),
            randBlockX_nonneg r, randBlockX_lt r,
            le_refl 0, (by decide : (0 : Int) ≤ 600), dvd_zero _,
            hpy, hpw, hph, hbw, hbh⟩
        · rw [updateLogic_miss_continue r s hp hc hy hm]
          refine ⟨(by omega : (0 : Int) ≤ s.mistakes + 1),
            (by omega : s.mistakes + 1 ≤ MAX_MISTAKES), ?_,
            randBlockX_nonneg r, randBlockX_lt r,
            le_refl 0, (by decide : (0 : Int) ≤ 600), dvd_zero _,
            hpy, hpw, hph, hbw, hbh⟩
          show s.currentState = GameState.GAME_OVER ↔ s.mistakes + 1 = MAX_MISTAKES
          rw [hp]
          exact ⟨fun hgo => absurd hgo (by simp), fun hb => absurd hb (by omega)⟩
      · rw [updateLogic_no_catch_no_miss r s hp hc hy]
        exact ⟨hm0, hm5, hiff, hbx0, hbx1,
          (by simp only [blockAfterMove, BLOCK_SPEED]; omega :
            (0 : Int) ≤ (blockAfterMove s).y),
          (by simp only [blockAfterMove]; omega :
            (blockAfterMove s).y ≤ SCREEN_HEIGHT),
          (by simp only [blockAfterMove]; exact dvd_add hdvd dvd_rfl :
            BLOCK_SPEED ∣ (blockAfterMove s).y),
          hpy, hpw, hph, hbw, hbh⟩
  · rw [updateLogic_not_playing r s hp]
    exact h

lemma inv_stepFrame (i : FrameInput) (s : GState) (h : Inv s) :
    Inv (stepFrame i s) :=
  inv_updateLogic i.rnd _ (inv_applyKeyboard i.keys _ (inv_processEvents s i.events h))

lemma reachable_inv (s : GState) (h : Reachable s) : Inv s := by
  induction h with
  | init r0 => exact inv_initState r0
  | step i hr hrun ih => exact inv_stepFrame i _ ih

lemma reachable_runFrames (l : List FrameInput) (s : GState) (h : Reachable s) :
    Reachable (runFrames l s) := by
  induction l generalizing s with
  | nil => exact h
  | cons i rest ih =>
      rw [runFrames]
      by_cases hrun : s.isRunning = true
      · rw [if_pos hrun]
        exact ih _ (Reachable.step i h hrun)
      · rw [if_neg hrun]
        exact h

lemma runFrames_not_running (l : List FrameInput) (s : GState)
    (h : s.isRunning = false) : runFrames l s = s := by
  cases l with
  | nil => rfl
  | cons i rest =>
      rw [runFrames, if_neg]
      rw [h]
      simp

lemma applyKeyboard_mistakes (k : Keyboard) (s : GState) :
    (applyKeyboard k s).mistakes = s.mistakes := by
  obtain ⟨px, hpx⟩ := applyKeyboard_shape k s
  rw [hpx]

lemma applyKeyboard_block (k : Keyboard) (s : GState) :
    (applyKeyboard k s).block = s.block := by
  obtain ⟨px, hpx⟩ := applyKeyboard_shape k s
  rw [hpx]

lemma applyKeyboard_state (k : Keyboard) (s : GState) :
    (applyKeyboard k s).currentState = s.currentState := by
  obtain ⟨px, hpx⟩ := applyKeyboard_shape k s
  rw [hpx]

lemma applyKeyboard_isRunning (k : Keyboard) (s : GState) :
    (applyKeyboard k s).isRunning = s.isRunning := by
  obtain ⟨px, hpx⟩ := applyKeyboard_shape k s
  rw [hpx]

lemma applyKeyboard_player_dims (k : Keyboard) (s : GState) :
    (applyKeyboard k s).player.y = s.player.y ∧
    (applyKeyboard k s).player.w = s.player.w ∧
    (applyKeyboard k s).player.h = s.player.h := by
  obtain ⟨px, hpx⟩ := applyKeyboard_shape k s
  rw [hpx]
  exact ⟨rfl, rfl, rfl⟩

lemma updateLogic_isRunning (r : Nat) (s : GState) :
    (updateLogic r s).isRunning = s.isRunning := by
  by_cases hp : s.currentState = GameState.PLAYING
  · by_cases hc : SDL_HasIntersection (paddleAfterClamp s) (blockAfterMove s) = true
    · rw [updateLogic_catch r s hp hc]
    · rw [Bool.not_eq_true] at hc
      by_cases hy : s.block.y + BLOCK_SPEED > SCREEN_HEIGHT
      · by_cases hm : s.mistakes + 1 ≥ MAX_MISTAKES
        · rw [updateLogic_miss_gameOver r s hp hc hy hm]
        · rw [updateLogic_miss_continue r s hp hc hy hm]
      · rw [updateLogic_no_catch_no_miss r s hp hc hy]
  · rw [updateLogic_not_playing r s hp]

lemma updateLogic_player_playing (r : Nat) (s : GState)
    (hp : s.currentState = GameState.PLAYING) :
    (updateLogic r s).player = paddleAfterClamp s := by
  by_cases hc : SDL_HasIntersection (paddleAfterClamp s) (blockAfterMove s) = true
  · rw [updateLogic_catch r s hp hc]
  · rw [Bool.not_eq_true] at hc
    by_cases hy : s.block.y + BLOCK_SPEED > SCREEN_HEIGHT
    · by_cases hm : s.mistakes + 1 ≥ MAX_MISTAKES
      · rw [updateLogic_miss_gameOver r s hp hc hy hm]
      · rw [updateLogic_miss_continue r s hp hc hy hm]
    · rw [updateLogic_no_catch_no_miss r s hp hc hy]

lemma updateLogic_mistakes_cases (r : Nat) (s : GState) :
    (updateLogic r s).mistakes = s.mistakes ∨
    (updateLogic r s).mistakes = s.mistakes + 1 := by
  by_cases hp : s.currentState = GameState.PLAYING
  · by_cases hc : SDL_HasIntersection (paddleAfterClamp s) (blockAfterMove s) = true
    · rw [updateLogic_catch r s hp hc]
      exact Or.inl rfl
    · rw [Bool.not_eq_true] at hc
      by_cases hy : s.block.y + BLOCK_SPEED > SCREEN_HEIGHT
      · by_cases hm : s.mistakes + 1 ≥ MAX_MISTAKES
        · rw [updateLogic_miss_gameOver r s hp hc hy hm]
          exact Or.inr rfl
        · rw [updateLogic_miss_continue r s hp hc hy hm]
          exact Or.inr rfl
      · rw [updateLogic_no_catch_no_miss r s hp hc hy]
        exact Or.inl rfl
  · rw [updateLogic_not_playing r s hp]
    exact Or.inl rfl

lemma stepFrame_mistakes_cases (i : FrameInput) (s : GState) :
    (stepFrame i s).mistakes = s.mistakes ∨
    (stepFrame i s).mistakes = s.mistakes + 1 := by
  have h1 := processEvents_mistakes s i.events
  have h2 := applyKeyboard_mistakes i.keys (processEvents s i.events)
  have h3 := updateLogic_mistakes_cases i.rnd (applyKeyboard i.keys (processEvents s i.events))
  show (updateLogic i.rnd (applyKeyboard i.keys (processEvents s i.events))).mistakes = s.mistakes ∨
    (updateLogic i.rnd (applyKeyboard i.keys (processEvents s i.events))).mistakes = s.mistakes + 1
  omega

lemma clampPaddleX_bounds (x w : Int) (hw : 0 ≤ SCREEN_WIDTH - w) :
    0 ≤ clampPaddleX x w ∧ clampPaddleX x w ≤ SCREEN_WIDTH - w := by
  simp only [clampPaddleX]
  split_ifs <;> omega

set_option maxRecDepth 100000 in
/-- Concrete facts about the reachable state s4, checked by evaluation. -/
lemma s4_facts :
    s4.currentState = GameState.PLAYING ∧ s4.mistakes = 4 ∧ s4.block.y = 600 := by
  decide

/-- The state s4 is reachable by running the game loop. -/
lemma s4_reachable : Reachable s4 :=
  reachable_runFrames (startInput :: List.replicate 603 playInput) (initState 0)
    (Reachable.init 0)

/-- Claim C2: every reachable state has 0 <= mistakes <= MAX_MISTAKES; the
counter never decreases over a frame and increments only while Playing; when
it reaches MAX_MISTAKES the same frame moves the state to GAME_OVER; and a
Playing state with mistakes = 4 whose block crosses the bottom this frame
ends with mistakes = 5 and state GAME_OVER. -/
theorem mistakes_bounded_monotone_gameover (s : GState) (i : FrameInput)
    (hr : Reachable s) :
    (0 ≤ s.mistakes ∧ s.mistakes ≤ MAX_MISTAKES) ∧
    s.mistakes ≤ (stepFrame i s).mistakes ∧
    ((stepFrame i s).mistakes = s.mistakes + 1 →
      (applyKeyboard i.keys (processEvents s i.events)).currentState = GameState.PLAYING) ∧
    ((stepFrame i s).mistakes = MAX_MISTAKES →
      (stepFrame i s).currentState = GameState.GAME_OVER) ∧
    (s.currentState = GameState.PLAYING → s.mistakes = 4 →
      s.block.y + BLOCK_SPEED > SCREEN_HEIGHT →
      (stepFrame i s).mistakes = MAX_MISTAKES ∧
      (stepFrame i s).currentState = GameState.GAME_OVER) := by
  have hinv := reachable_inv s hr
  have hpost : Inv (stepFrame i s) := inv_stepFrame i s hinv
  refine ⟨⟨hinv.1, hinv.2.1⟩, ?_, ?_, ?_, ?_⟩
  · rcases stepFrame_mistakes_cases i s with h | h <;> omega
  · intro hinc
    by_cases hmid : (applyKeyboard i.keys (processEvents s i.events)).currentState =
        GameState.PLAYING
    · exact hmid
    · exfalso
      have hstep : stepFrame i s =
          updateLogic i.rnd (applyKeyboard i.keys (processEvents s i.events)) := rfl
      rw [hstep, updateLogic_not_playing _ _ hmid] at hinc
      rw [applyKeyboard_mistakes, processEvents_mistakes] at hinc
      omega
  · intro h5
    exact hpost.2.2.1.mpr h5
  · intro hp hm4 hy
    obtain ⟨hm0, hm5, hiff, hbx0, hbx1, hby0, hby1, hdvd, hpy, hpw, hph, hbw, hbh⟩ := hinv
    have hpe := processEvents_playing s i.events hp
    have htp : (applyKeyboard i.keys (processEvents s i.events)).currentState =
        GameState.PLAYING := by
      rw [applyKeyboard_state]
      exact hpe
    have htm : (applyKeyboard i.keys (processEvents s i.events)).mistakes = s.mistakes := by
      rw [applyKeyboard_mistakes, processEvents_mistakes]
    have htb : (applyKeyboard i.keys (processEvents s i.events)).block = s.block := by
      rw [applyKeyboard_block, processEvents_block]
    have hty : (applyKeyboard i.keys (processEvents s i.events)).player.y = s.player.y := by
      rw [(applyKeyboard_player_dims _ _).1, (processEvents_player_dims _ _).1]
    have hth : (applyKeyboard i.keys (processEvents s i.events)).player.h = s.player.h := by
      rw [(applyKeyboard_player_dims _ _).2.2, (processEvents_player_dims _ _).2.2]
    have hc : SDL_HasIntersection
        (paddleAfterClamp (applyKeyboard i.keys (processEvents s i.events)))
        (blockAfterMove (applyKeyboard i.keys (processEvents s i.events))) = false := by
      apply hasIntersection_false_of_below
      show (applyKeyboard i.keys (processEvents s i.events)).player.y +
          (applyKeyboard i.keys (processEvents s i.events)).player.h ≤
          (applyKeyboard i.keys (processEvents s i.events)).block.y + BLOCK_SPEED
      rw [hty, hth, htb, hpy, hph]
      simp only [SCREEN_HEIGHT, PADDLE_HEIGHT, BLOCK_SPEED] at hy ⊢
      omega
    have hy2 : (applyKeyboard i.keys (processEvents s i.events)).block.y + BLOCK_SPEED >
        SCREEN_HEIGHT := by
      rw [htb]
      exact hy
    have hm2 : (applyKeyboard i.keys (processEvents s i.events)).mistakes + 1 ≥
        MAX_MISTAKES := by
      rw [htm, hm4]
      decide
    have hstep : stepFrame i s =
        updateLogic i.rnd (applyKeyboard i.keys (processEvents s i.events)) := rfl
    rw [hstep, updateLogic_miss_gameOver i.rnd _ htp hc hy2 hm2]
    constructor
    · show (applyKeyboard i.keys (processEvents s i.events)).mistakes + 1 = MAX_MISTAKES
      rw [htm, hm4]
      decide
    · rfl

/-- Witness for C2 at the concrete reachable state s4 (mistakes = 4, block
about to cross the bottom). -/
theorem mistakes_bounded_monotone_gameover_witness :
    (0 ≤ s4.mistakes ∧ s4.mistakes ≤ MAX_MISTAKES) ∧
    s4.mistakes ≤ (stepFrame playInput s4).mistakes ∧
    (stepFrame playInput s4).mistakes = MAX_MISTAKES ∧
    (stepFrame playInput s4).currentState = GameState.GAME_OVER := by
  have h := mistakes_bounded_monotone_gameover s4 playInput s4_reachable
  have hy : s4.block.y + BLOCK_SPEED > SCREEN_HEIGHT := by
    rw [s4_facts.2.2]
    decide
  obtain ⟨h5, hgo⟩ := h.2.2.2.2 s4_facts.1 s4_facts.2.1 hy
  exact ⟨h.1, h.2.1, h5, hgo⟩

/-- Claim C3: in every Playing frame, after the clamping step the paddle x
satisfies 0 <= x <= SCREEN_WIDTH - PADDLE_WIDTH, regardless of the pointer
and keyboard input applied earlier in the frame. -/
theorem paddle_clamped_within_screen (s : GState) (i : FrameInput)
    (hw : s.player.w = PADDLE_WIDTH)
    (hp : (applyKeyboard i.keys (processEvents s i.events)).currentState =
      GameState.PLAYING) :
    0 ≤ (stepFrame i s).player.x ∧
    (stepFrame i s).player.x ≤ SCREEN_WIDTH - PADDLE_WIDTH := by
  have htw : (applyKeyboard i.keys (processEvents s i.events)).player.w = PADDLE_WIDTH := by
    rw [(applyKeyboard_player_dims _ _).2.1, (processEvents_player_dims _ _).2.1]
    exact hw
  have hplayer : (stepFrame i s).player =
      paddleAfterClamp (applyKeyboard i.keys (processEvents s i.events)) :=
    updateLogic_player_playing i.rnd _ hp
  rw [hplayer]
  show 0 ≤ clampPaddleX (applyKeyboard i.keys (processEvents s i.events)).player.x
        (applyKeyboard i.keys (processEvents s i.events)).player.w ∧
      clampPaddleX (applyKeyboard i.keys (processEvents s i.events)).player.x
        (applyKeyboard i.keys (processEvents s i.events)).player.w ≤
        SCREEN_WIDTH - PADDLE_WIDTH
  rw [htw]
  exact clampPaddleX_bounds _ PADDLE_WIDTH (by decide)

/-- Witness for C3 on the first Playing frame from the initial state. -/
theorem paddle_clamped_within_screen_witness :
    0 ≤ (stepFrame startInput (initState 0)).player.x ∧
    (stepFrame startInput (initState 0)).player.x ≤ SCREEN_WIDTH - PADDLE_WIDTH :=
  paddle_clamped_within_screen (initState 0) startInput rfl (by decide)

/-- Claim C4: in a Playing frame where the clamped paddle and the moved
block intersect, the block is reset to y = 0 with a new random
x in [0, SCREEN_WIDTH - BLOCK_SIZE), and the mistake counter is unchanged. -/
theorem catch_resets_block_no_mistake (s : GState) (r : Nat)
    (hp : s.currentState = GameState.PLAYING)
    (hc : catchCondition s) :
    (updateLogic r s).block.y = 0 ∧
    (updateLogic r s).block.x = randBlockX r ∧
    0 ≤ (updateLogic r s).block.x ∧
    (updateLogic r s).block.x < SCREEN_WIDTH - BLOCK_SIZE ∧
    (updateLogic r s).mistakes = s.mistakes := by
  rw [updateLogic_catch r s hp hc]
  exact ⟨rfl, rfl, randBlockX_nonneg r, randBlockX_lt r, rfl⟩

/-- Witness for C4 with paddle (350,570,100,20) and block moving to
(380,565,30,30): the intersection test is true and the block resets. -/
theorem catch_resets_block_no_mistake_witness :
    (updateLogic 123 sCatch).block.y = 0 ∧
    (updateLogic 123 sCatch).block.x = randBlockX 123 ∧
    0 ≤ (updateLogic 123 sCatch).block.x ∧
    (updateLogic 123 sCatch).block.x < SCREEN_WIDTH - BLOCK_SIZE ∧
    (updateLogic 123 sCatch).mistakes = sCatch.mistakes :=
  catch_resets_block_no_mistake sCatch 123 rfl (by decide)

/-- Claim C6: while in MENU, a pointer-down event moves the state to
PLAYING if and only if the pointer lies inside the play-button rectangle;
an outside click leaves the whole state unchanged; an inside click also
starts the music. -/
theorem menu_click_starts_iff_inside (s : GState) (mx my : Int)
    (hm : s.currentState = GameState.MENU) :
    ((handleEvent s (Event.mouseButtonDown mx my)).currentState = GameState.PLAYING ↔
      SDL_PointInRect ⟨mx, my⟩ playButtonRect = true) ∧
    (SDL_PointInRect ⟨mx, my⟩ playButtonRect = false →
      handleEvent s (Event.mouseButtonDown mx my) = s) ∧
    (SDL_PointInRect ⟨mx, my⟩ playButtonRect = true →
      (handleEvent s (Event.mouseButtonDown mx my)).musicPlaying = true) := by
  simp only [handleEvent, hm, if_true]
  cases hin : SDL_PointInRect ⟨mx, my⟩ playButtonRect
  · simp [hin, hm]
  · simp [hin]

/-- Witness for C6: clicking (500,500) changes nothing, clicking (400,300)
starts the game with music. -/
theorem menu_click_starts_iff_inside_witness :
    handleEvent (initState 0) (Event.mouseButtonDown 500 500) = initState 0 ∧
    (handleEvent (initState 0) (Event.mouseButtonDown 400 300)).currentState =
      GameState.PLAYING ∧
    (handleEvent (initState 0) (Event.mouseButtonDown 400 300)).musicPlaying = true :=
  ⟨(menu_click_starts_iff_inside (initState 0) 500 500 rfl).2.1 (by decide),
   (menu_click_starts_iff_inside (initState 0) 400 300 rfl).1.mpr (by decide),
   (menu_click_starts_iff_inside (initState 0) 400 300 rfl).2.2 (by decide)⟩

/-- Claim C7: in a Playing frame with no catch and no miss the block y
advances by exactly BLOCK_SPEED; outside PLAYING the logic leaves the block
untouched, and event handling and keyboard input never touch the block. -/
theorem block_advances_by_speed_only_playing (s s2 : GState) (r r2 : Nat)
    (k : Keyboard) (evs : List Event)
    (hp : s.currentState = GameState.PLAYING)
    (hc : ¬ catchCondition s)
    (hy : s.block.y + BLOCK_SPEED ≤ SCREEN_HEIGHT)
    (hp2 : s2.currentState ≠ GameState.PLAYING) :
    (updateLogic r s).block.y = s.block.y + BLOCK_SPEED ∧
    (updateLogic r2 s2).block = s2.block ∧
    (processEvents s evs).block = s.block ∧
    (applyKeyboard k s).block = s.block := by
  refine ⟨?_, ?_, processEvents_block s evs, applyKeyboard_block k s⟩
  · have hc2 : SDL_HasIntersection (paddleAfterClamp s) (blockAfterMove s) = false := by
      cases hX : SDL_HasIntersection (paddleAfterClamp s) (blockAfterMove s)
      · rfl
      · exact absurd hX hc
    rw [updateLogic_no_catch_no_miss r s hp hc2 (by omega)]
    rfl
  · rw [updateLogic_not_playing r2 s2 hp2]

/-- Witness for C7 on a mid-air block and on the initial MENU state. -/
theorem block_advances_by_speed_only_playing_witness :
    (updateLogic 0 sFall).block.y = sFall.block.y + BLOCK_SPEED ∧
    (updateLogic 0 (initState 0)).block = (initState 0).block ∧
    (processEvents sFall [Event.quit]).block = sFall.block ∧
    (applyKeyboard ⟨true, true⟩ sFall).block = sFall.block :=
  block_advances_by_speed_only_playing sFall (initState 0) 0 0 ⟨true, true⟩ [Event.quit]
    rfl (by decide) (by decide) (by decide)

/-- Claim C8: a frame whose event queue contains a window-close event or an
Escape key-down leaves the loop flag false, and the loop then executes no
further iteration from any list of pending frame inputs. -/
theorem quit_or_escape_ends_loop (s : GState) (i : FrameInput) (rest : List FrameInput)
    (h : Event.quit ∈ i.events ∨ Event.keyDown SDLK_ESCAPE ∈ i.events) :
    (stepFrame i s).isRunning = false ∧
    runFrames rest (stepFrame i s) = stepFrame i s := by
  have h3 : (stepFrame i s).isRunning = false := by
    show (updateLogic i.rnd (applyKeyboard i.keys (processEvents s i.events))).isRunning =
      false
    rw [updateLogic_isRunning, applyKeyboard_isRunning]
    exact processEvents_quit_or_escape s i.events h
  exact ⟨h3, runFrames_not_running rest _ h3⟩

/-- Witness for C8 on a close event in the initial state. -/
theorem quit_or_escape_ends_loop_witness :
    (stepFrame quitInput (initState 0)).isRunning = false ∧
    runFrames [playInput] (stepFrame quitInput (initState 0)) =
      stepFrame quitInput (initState 0) :=
  quit_or_escape_ends_loop (initState 0) quitInput [playInput] (Or.inl (by decide))

/-- Claim C9: in a single Playing frame catch and miss are mutually
exclusive and catch takes priority: a catch resets the block to y = 0 before
the miss check, so a catch frame never increments the mistake counter, and
in any frame the counter grows by at most one. -/
theorem catch_priority_excludes_miss (s : GState) (r : Nat)
    (hp : s.currentState = GameState.PLAYING) :
    (catchCondition s →
      (updateLogic r s).mistakes = s.mistakes ∧ (updateLogic r s).block.y = 0) ∧
    ((updateLogic r s).mistakes = s.mistakes ∨
      (updateLogic r s).mistakes = s.mistakes + 1) := by
  constructor
  · intro hc
    rw [updateLogic_catch r s hp hc]
    exact ⟨rfl, rfl⟩
  · exact updateLogic_mistakes_cases r s

/-- Witness for C9 on a concrete catching frame. -/
theorem catch_priority_excludes_miss_witness :
    ((updateLogic 9 sNine).mistakes = sNine.mistakes ∧
      (updateLogic 9 sNine).block.y = 0) ∧
    ((updateLogic 9 sNine).mistakes = sNine.mistakes ∨
      (updateLogic 9 sNine).mistakes = sNine.mistakes + 1) := by
  have h := catch_priority_excludes_miss sNine 9 rfl
  exact ⟨h.1 (by decide), h.2⟩

/-- Claim C10: every reachable state keeps the block x in
[0, SCREEN_WIDTH - BLOCK_SIZE) and its y a multiple of BLOCK_SPEED, so when
the miss check first fires the tested y is exactly 605, never 601. -/
theorem block_within_range_y_multiple (s : GState) (hr : Reachable s) :
    0 ≤ s.block.x ∧ s.block.x < SCREEN_WIDTH - BLOCK_SIZE ∧
    BLOCK_SPEED ∣ s.block.y ∧
    (s.block.y + BLOCK_SPEED > SCREEN_HEIGHT → s.block.y + BLOCK_SPEED = 605) := by
  obtain ⟨hm0, hm5, hiff, hbx0, hbx1, hby0, hby1, hdvd, hrest⟩ := reachable_inv s hr
  refine ⟨hbx0, hbx1, hdvd, fun hy => ?_⟩
  obtain ⟨c, hcy⟩ := hdvd
  simp only [BLOCK_SPEED] at hcy
  simp only [SCREEN_HEIGHT] at hby1
  simp only [SCREEN_HEIGHT, BLOCK_SPEED] at hy
  simp only [BLOCK_SPEED]
  omega

/-- Witness for C10 at the reachable state s4, where the next tested y is
exactly 605. -/
theorem block_within_range_y_multiple_witness :
    0 ≤ s4.block.x ∧ s4.block.x < SCREEN_WIDTH - BLOCK_SIZE ∧
    BLOCK_SPEED ∣ s4.block.y ∧ s4.block.y + BLOCK_SPEED = 605 := by
  have h := block_within_range_y_multiple s4 s4_reachable
  have hy : s4.block.y + BLOCK_SPEED > SCREEN_HEIGHT := by
    rw [s4_facts.2.2]
    decide
  exact ⟨h.1, h.2.1, h.2.2.1, h.2.2.2 hy⟩

end CatchTheBlock
